import Mathlib

/-!
Shallow embedding of the proxy-cache-rate-limit pipeline of this repository:
`src/app/api/proxy/route.ts` (the `POST` handler and `isRateLimited`) and
`src/lib/redis.ts` (`getCacheKey` and the cache types).

Modelling conventions:
* The wall clock (`performance.now()`) is modelled as integral milliseconds, so
  the `Math.round` applied to clock differences in the source is the identity.
* The external world (Redis and the upstream server) is an oracle `Env`: each
  store operation's outcome is a field of `Env` (`Except` for fallible calls),
  and the handler records every store/network operation it attempts in a trace
  of `Eff` values, in program order.
* JavaScript truthiness that the source relies on is made explicit:
  `!url` is `url == ""` (an absent url is modelled as the empty string),
  `body ? JSON.stringify(body) : ''` tests `body` for presence and
  non-emptiness, and `cache?.ttl || MAX_TTL` treats `0` (and an absent `ttl`)
  as `MAX_TTL`.
-/

namespace Postman

/-- `MAX_TTL` of route.ts line 5: maximum cache TTL in seconds. -/
def MAX_TTL : Int := 30

/-- `RATE_LIMIT` of route.ts line 6: number of requests allowed per window. -/
def RATE_LIMIT : Int := 20

/-- `RATE_LIMIT_WINDOW` of route.ts line 7: window length in seconds. -/
def RATE_LIMIT_WINDOW : Int := 60

/-- Marker for `ERROR_MESSAGES.rateLimited` (route.ts line 11); the emoji text
is abbreviated, only its identity matters. -/
def rateLimitedMsg : String := "rateLimited"

/-- Marker for `ERROR_MESSAGES.invalidUrl` (route.ts line 12). -/
def invalidUrlMsg : String := "invalidUrl"

/-- Marker for `ERROR_MESSAGES.serverError` (route.ts line 13). -/
def serverErrorMsg : String := "serverError"

/-- Marker for `ERROR_MESSAGES.timeout` (route.ts line 14). -/
def timeoutMsg : String := "timeout"

/-- Lowercase hex digit, as produced by `JSON.stringify` unicode escapes. -/
def hexDigit (n : Nat) : Char :=
  if n < 10 then Char.ofNat (48 + n) else Char.ofNat (97 + n - 10)

/-- Value of a lowercase hex digit (inverse of `hexDigit` on digits). -/
def hexVal (c : Char) : Nat :=
  if c.toNat ≥ 97 then c.toNat - 97 + 10 else c.toNat - 48

/-- `JSON.stringify` escaping of one character of a string value:
`"`, `\`, the named control escapes, `\u00XX` for the other control
characters, and all other characters verbatim. -/
def escChar (c : Char) : List Char :=
  if c = '"' then ['\\', '"']
  else if c = '\\' then ['\\', '\\']
  else if c = '\n' then ['\\', 'n']
  else if c = '\r' then ['\\', 'r']
  else if c = '\t' then ['\\', 't']
  else if c = '\x08' then ['\\', 'b']
  else if c = '\x0c' then ['\\', 'f']
  else if c.toNat < 32 then
    ['\\', 'u', '0', '0', hexDigit (c.toNat / 16), hexDigit (c.toNat % 16)]
  else [c]

/-- `JSON.stringify` escaping of a character list. -/
def escList : List Char → List Char
  | [] => []
  | c :: cs => escChar c ++ escList cs

/-- `JSON.stringify` applied to a string value: the escaped text wrapped in
double quotes. -/
def jsonStringify (s : String) : String :=
  "\"" ++ String.mk (escList s.data) ++ "\""

/-- The body segment of the cache key: `body ? JSON.stringify(body) : ''`
(redis.ts line 54). The JavaScript truthiness test `body ?` is false for an
absent body and for the empty-string body. -/
def bodyPart (body : Option String) : String :=
  match body with
  | some b => if b = "" then "" else jsonStringify b
  | none => ""

/-- `getCacheKey` of redis.ts lines 53-55:
`` `cache:${method}:${url}:${body ? JSON.stringify(body) : ''}` ``. -/
def getCacheKey (method url : String) (body : Option String) : String :=
  "cache:" ++ method ++ ":" ++ url ++ ":" ++ bodyPart body

/-- `CacheConfig` of redis.ts lines 40-43. -/
structure CacheConfig where
  enabled : Bool
  ttl : Option Int := none
deriving DecidableEq

/-- The parsed body of the inbound forward request (route.ts lines 44-50). -/
structure ForwardReq where
  url : String
  method : String
  headers : List (String × String)
  body : Option String := none
  cache : Option CacheConfig := none
deriving DecidableEq

/-- `CacheStats` of redis.ts lines 45-50. The route never sets `timestamp`. -/
structure CacheStats where
  hit : Bool
  ttl : Option Int := none
  timestamp : Option Int := none
  timeSaved : Option Int := none
deriving DecidableEq

/-- The success envelope `responseData` assembled at route.ts lines 130-137. -/
structure RespEnvelope where
  status : Nat
  statusText : String
  headers : List (String × String)
  data : String
  timing : Int
  cache : CacheStats
deriving DecidableEq

/-- The JSON blob stored in the cache (route.ts lines 143-146):
the response envelope plus the original request timing. -/
structure CacheEntry where
  data : RespEnvelope
  originalTiming : Int
deriving DecidableEq

/-- Failure of the upstream `fetch` (or of reading its body): the outer catch
distinguishes only `error.name === 'TimeoutError'` and keeps `error.message`
as the `details` string (route.ts lines 160-173). -/
structure UpErr where
  isTimeout : Bool
  message : String
deriving DecidableEq

/-- A successful upstream response, with its body already fully read
(route.ts lines 115-125); `data` is the parsed-or-raw body, opaque here. -/
structure UpstreamResp where
  status : Nat
  statusText : String
  headers : List (String × String)
  data : String
deriving DecidableEq

/-- Oracle for one run of the handler: the outcome each external operation
would have if attempted, and the wall clock readings.

`nowPreFetch` is the instant at which the upstream call is issued; the source
never reads the clock there, the field exists only so that specifications
about that instant can be stated. `setOk` is the outcome of `redis.set`; the
source catches and logs a failure without changing anything observable, so the
handler never reads this field. -/
structure Env where
  xff : Option String := none
  connectOk : Bool := true
  incrRes : Except Unit Int := .error ()
  getRes : Except Unit (Option CacheEntry) := .error ()
  ttlRes : Except Unit Int := .error ()
  fetchRes : Except UpErr UpstreamResp
  setOk : Bool := true
  nowStart : Int := 0
  nowPreFetch : Int := 0
  nowHit : Int := 0
  nowAfterFetch : Int := 0

/-- One attempted external operation, in program order. -/
inductive Eff where
  | incr (key : String)
  | expire (key : String) (seconds : Int)
  | get (key : String)
  | ttlq (key : String)
  | set (key : String) (entry : CacheEntry) (ex : Int)
  | fetch (url : String) (method : String) (headers : List (String × String))
      (body : Option String) (timeoutMs : Nat)
deriving DecidableEq

/-- What the handler returns: `NextResponse.json(responseData)` (status 200)
or an error response `{ error, details? }` with an explicit status. -/
inductive HandlerResult where
  | ok (body : RespEnvelope)
  | err (status : Nat) (error : String) (details : Option String)
deriving DecidableEq

/-- `cache?.enabled === true` (route.ts line 60). -/
def cacheEnabled : Option CacheConfig → Bool
  | some cfg => cfg.enabled
  | none => false

/-- `String.startsWith`, computed on the underlying character lists (the
built-in `String.startsWith` is byte-level; this is its specification). -/
def strStartsWith (s pre : String) : Bool :=
  pre.data.isPrefixOf s.data

/-- The URL validation of route.ts line 53:
`!url || (!url.startsWith('http://') && !url.startsWith('https://'))`. -/
def invalidUrl (url : String) : Bool :=
  url == "" || (!(strStartsWith url "http://") && !(strStartsWith url "https://"))

/-- The body sent upstream (route.ts line 118):
`method !== 'GET' && method !== 'HEAD' ? body : undefined`. -/
def forwardedBody (method : String) (body : Option String) : Option String :=
  if !(method == "GET") && !(method == "HEAD") then body else none

/-- The `EX` option of the cache write (route.ts line 149):
`Math.min(cache?.ttl || MAX_TTL, MAX_TTL)`; `0` and an absent `ttl` are falsy
and fall back to `MAX_TTL`. -/
def effectiveEX (cache : Option CacheConfig) : Int :=
  min
    (match cache with
     | some cfg =>
       match cfg.ttl with
       | some t => if t = 0 then MAX_TTL else t
       | none => MAX_TTL
     | none => MAX_TTL)
    MAX_TTL

/-- `isRateLimited` of route.ts lines 17-34, against the oracle: returns the
verdict and the store operations attempted. Any store failure is caught and
yields `false` (fail open). `redis.expire` is issued when the incremented
count is 1; a failure of `expire` itself also lands in the catch and yields
`false`, which is what `requests = 1 ≤ RATE_LIMIT` yields anyway. -/
def isRateLimited (env : Env) (ip : String) (useRedis : Bool) :
    Bool × List Eff :=
  if useRedis = false then (false, [])
  else if env.connectOk = false then (false, [])
  else
    match env.incrRes with
    | .error _ => (false, [.incr ("rate_limit:" ++ ip)])
    | .ok requests =>
      (decide (requests > RATE_LIMIT),
       .incr ("rate_limit:" ++ ip) ::
         (if requests = 1 then [.expire ("rate_limit:" ++ ip) RATE_LIMIT_WINDOW]
          else []))

/-- The tail of the handler from the upstream call onwards (route.ts lines
114-158): issue the fetch with a hard 30000 ms timeout, map a failure to
408/500 via the outer catch, on success assemble `responseData` (with
`cacheStats = { hit: false }`, the only value the miss path can carry) and
attempt the cache write when Redis is enabled and available. -/
def missPath (env : Env) (req : ForwardReq) (key : String) (redisUp : Bool)
    (effs : List Eff) : HandlerResult × List Eff :=
  let fe : Eff :=
    .fetch req.url req.method req.headers (forwardedBody req.method req.body) 30000
  match env.fetchRes with
  | .error e =>
    (.err (if e.isTimeout then 408 else 500)
          (if e.isTimeout then timeoutMsg else serverErrorMsg)
          (some e.message),
     effs ++ [fe])
  | .ok u =>
    let totalTiming := env.nowAfterFetch - env.nowStart
    let responseData : RespEnvelope :=
      { status := u.status, statusText := u.statusText, headers := u.headers,
        data := u.data, timing := totalTiming, cache := { hit := false } }
    if redisUp then
      (.ok responseData,
       effs ++ [fe, .set key { data := responseData, originalTiming := totalTiming }
                      (effectiveEX req.cache)])
    else
      (.ok responseData, effs ++ [fe])

/-- The `POST` handler of route.ts lines 36-174, as a function of the oracle
and the parsed request, returning the response and the trace of attempted
external operations. -/
def handle (env : Env) (req : ForwardReq) : HandlerResult × List Eff :=
  let ip := env.xff.getD "unknown"
  if invalidUrl req.url then
    (.err 400 invalidUrlMsg (some ("Invalid URL: " ++ req.url)), [])
  else
    let useRedis := cacheEnabled req.cache
    let redisUp := useRedis && env.connectOk
    let rate := if redisUp then isRateLimited env ip useRedis else (false, [])
    if rate.1 then
      (.err 429 rateLimitedMsg none, rate.2)
    else
      let key := getCacheKey req.method req.url req.body
      if redisUp then
        match env.getRes with
        | .ok (some entry) =>
          match env.ttlRes with
          | .ok t =>
            let currentTiming := env.nowHit - env.nowStart
            (.ok { entry.data with
                     cache := { hit := true, ttl := some t,
                                timeSaved := some (entry.originalTiming - currentTiming) },
                     timing := currentTiming },
             rate.2 ++ [.get key, .ttlq key])
          | .error _ => missPath env req key redisUp (rate.2 ++ [.get key, .ttlq key])
        | .ok none => missPath env req key redisUp (rate.2 ++ [.get key])
        | .error _ => missPath env req key redisUp (rate.2 ++ [.get key])
      else
        missPath env req key redisUp rate.2

/-- Redis `INCR` on a counter (an absent key counts as 0): the stored counter
and the returned post-increment value. -/
def redisIncr (count : Nat) : Nat × Int := (count + 1, (count : Int) + 1)

/-- One request's rate-limit step against a live store whose counter for the
client key is `count`, within one fixed window: the body of `isRateLimited`
(route.ts lines 23-29) with the `INCR` result made explicit. -/
def rateStep (count : Nat) : Bool × Nat :=
  let r := redisIncr count
  (decide (r.2 > RATE_LIMIT), r.1)

/-- `n` consecutive requests of one client inside a single fixed window,
starting from an absent counter (count 0): the final counter value and the
per-request rate-limited verdicts in order. -/
def runWindow : Nat → Nat × List Bool
  | 0 => (0, [])
  | Nat.succ n =>
    let p := runWindow n
    let s := rateStep p.1
    (s.2, p.2 ++ [s.1])

/-- Single-step decoder for `escChar` output (verification infrastructure:
a left inverse used to prove injectivity of the escaping). -/
def unescChar? (l : List Char) : Option (Char × List Char) :=
  match l with
  | [] => none
  | c :: cs =>
    if c = '\\' then
      match cs with
      | [] => none
      | d :: ds =>
        if d = '"' then some ('"', ds)
        else if d = '\\' then some ('\\', ds)
        else if d = 'n' then some ('\n', ds)
        else if d = 'r' then some ('\r', ds)
        else if d = 't' then some ('\t', ds)
        else if d = 'b' then some ('\x08', ds)
        else if d = 'f' then some ('\x0c', ds)
        else if d = 'u' then
          match ds with
          | _ :: _ :: h1 :: h2 :: r => some (Char.ofNat (16 * hexVal h1 + hexVal h2), r)
          | _ => none
        else none
    else some (c, cs)

/-- Fuelled decoder for `escList` output (verification infrastructure). -/
def unescF : Nat → List Char → Option (List Char)
  | _, [] => some []
  | 0, _ :: _ => none
  | n + 1, c :: cs =>
    match unescChar? (c :: cs) with
    | some (d, r) => (unescF n r).map (fun ts => d :: ts)
    | none => none

/-- A plain upstream response reused by the concrete witness runs. -/
def okResp : UpstreamResp :=
  { status := 200, statusText := "OK",
    headers := [("content-type", "text/plain")], data := "payload" }

/-- A cached entry reused by the concrete hit-path witness runs. -/
def hitEntry : CacheEntry :=
  { data := { status := 201, statusText := "Created", headers := [],
              data := "origdata", timing := 500, cache := { hit := false } },
    originalTiming := 5 }

/-- A request with caching left unconfigured. -/
def reqPlain : ForwardReq := { url := "http://a", method := "GET", headers := [] }

/-- A request with caching enabled and no requested ttl. -/
def reqCached : ForwardReq :=
  { url := "http://a", method := "GET", headers := [],
    cache := some { enabled := true } }

/-- A request asking for a 45-second cache ttl. -/
def reqTtl45 : ForwardReq :=
  { url := "http://a", method := "GET", headers := [],
    cache := some { enabled := true, ttl := some 45 } }

/-- A request asking for a negative cache ttl. -/
def reqTtlNeg : ForwardReq :=
  { url := "http://a", method := "GET", headers := [],
    cache := some { enabled := true, ttl := some (-5) } }

/-- A request whose url has an unaccepted scheme. -/
def reqFtp : ForwardReq := { url := "ftp://example.com", method := "GET", headers := [] }

/-- A healthy-store cache-miss run: counter at 2, no cached entry. -/
def envMiss : Env :=
  { incrRes := .ok 2, getRes := .ok none, fetchRes := .ok okResp,
    nowStart := 0, nowAfterFetch := 10 }

/-- A run whose incremented rate counter is 21 (over the limit). -/
def envLimited : Env := { incrRes := .ok 21, fetchRes := .ok okResp }

/-- A healthy-store cache-hit run: the hit is served 100 ms after entry. -/
def envHit : Env :=
  { incrRes := .ok 2, getRes := .ok (some hitEntry), ttlRes := .ok 25,
    fetchRes := .ok okResp, nowStart := 0, nowHit := 100 }

/-- A run whose rate-limit increment and cache lookup both fail. -/
def envDegraded : Env :=
  { incrRes := .error (), getRes := .error (), fetchRes := .ok okResp,
    nowStart := 0, nowAfterFetch := 10 }

/-- A run whose upstream call times out. -/
def envTimeout : Env :=
  { fetchRes := .error { isTimeout := true, message := "timed out" } }

/-- A run with a visible gap between handler entry (t=0) and the instant the
upstream call is issued (t=100); the body is fully read at t=150. -/
def envClock : Env :=
  { fetchRes := .ok okResp, nowStart := 0, nowPreFetch := 100, nowAfterFetch := 150 }

/-! ## Helper lemmas -/

theorem hexVal_hexDigit : ∀ m, m < 16 → hexVal (hexDigit m) = m := by decide

theorem hexDigit_ne_quote : ∀ m, m < 16 → hexDigit m ≠ '"' := by decide

theorem escChar_ne_nil (c : Char) : escChar c ≠ [] := by
  unfold escChar
  split_ifs <;> simp

theorem escChar_head (c : Char) : ∃ z zs, escChar c = z :: zs ∧ z ≠ '"' := by
  unfold escChar
  split_ifs with h1 h2 h3 h4 h5 h6 h7 h8
  · exact ⟨'\\', _, rfl, by decide⟩
  · exact ⟨'\\', _, rfl, by decide⟩
  · exact ⟨'\\', _, rfl, by decide⟩
  · exact ⟨'\\', _, rfl, by decide⟩
  · exact ⟨'\\', _, rfl, by decide⟩
  · exact ⟨'\\', _, rfl, by decide⟩
  · exact ⟨'\\', _, rfl, by decide⟩
  · exact ⟨'\\', _, rfl, by decide⟩
  · exact ⟨c, [], rfl, h1⟩

theorem escList_head (s : List Char) (w : List Char) : escList s ≠ '"' :: w := by
  cases s with
  | nil => simp [escList]
  | cons a s' =>
    obtain ⟨z, zs, hz, hzq⟩ := escChar_head a
    simp only [escList, hz, List.cons_append, ne_eq, List.cons.injEq, not_and]
    intro h
    exact absurd h hzq

theorem escChar_no_pat (a : Char) (t w : List Char) (c : Char) (hc : c ≠ '\\') :
    escChar a ≠ t ++ c :: '"' :: w := by
  unfold escChar
  split_ifs with h1 h2 h3 h4 h5 h6 h7 h8 <;> intro h
  · have hl := congrArg List.length h
    simp at hl
    obtain ⟨ht, hw⟩ : t = [] ∧ w = [] := by
      constructor <;> [skip; skip] <;> rw [← List.length_eq_zero] <;> omega
    subst ht; subst hw
    simp [List.cons.injEq] at h
    exact hc h.symm
  · have hl := congrArg List.length h
    simp at hl
    obtain ⟨ht, hw⟩ : t = [] ∧ w = [] := by
      constructor <;> [skip; skip] <;> rw [← List.length_eq_zero] <;> omega
    subst ht; subst hw
    simp [List.cons.injEq] at h
  · have hl := congrArg List.length h
    simp at hl
    obtain ⟨ht, hw⟩ : t = [] ∧ w = [] := by
      constructor <;> [skip; skip] <;> rw [← List.length_eq_zero] <;> omega
    subst ht; subst hw
    simp [List.cons.injEq] at h
  · have hl := congrArg List.length h
    simp at hl
    obtain ⟨ht, hw⟩ : t = [] ∧ w = [] := by
      constructor <;> [skip; skip] <;> rw [← List.length_eq_zero] <;> omega
    subst ht; subst hw
    simp [List.cons.injEq] at h
  · have hl := congrArg List.length h
    simp at hl
    obtain ⟨ht, hw⟩ : t = [] ∧ w = [] := by
      constructor <;> [skip; skip] <;> rw [← List.length_eq_zero] <;> omega
    subst ht; subst hw
    simp [List.cons.injEq] at h
  · have hl := congrArg List.length h
    simp at hl
    obtain ⟨ht, hw⟩ : t = [] ∧ w = [] := by
      constructor <;> [skip; skip] <;> rw [← List.length_eq_zero] <;> omega
    subst ht; subst hw
    simp [List.cons.injEq] at h
  · have hl := congrArg List.length h
    simp at hl
    obtain ⟨ht, hw⟩ : t = [] ∧ w = [] := by
      constructor <;> [skip; skip] <;> rw [← List.length_eq_zero] <;> omega
    subst ht; subst hw
    simp [List.cons.injEq] at h
  · rcases t with _ | ⟨t1, _ | ⟨t2, _ | ⟨t3, _ | ⟨t4, _ | ⟨t5, t'⟩⟩⟩⟩⟩
    · simp [List.cons.injEq] at h
    · simp [List.cons.injEq] at h
    · simp [List.cons.injEq] at h
    · simp [List.cons.injEq] at h
      exact hexDigit_ne_quote (a.toNat / 16) (by omega) h.2.2.2.2.1
    · simp [List.cons.injEq] at h
      exact hexDigit_ne_quote (a.toNat % 16) (Nat.mod_lt _ (by norm_num)) h.2.2.2.2.2.1
    · have hl := congrArg List.length h
      simp at hl
      omega
  · have hl := congrArg List.length h
    simp at hl
    omega

theorem escList_no_pat : ∀ (s t w : List Char) (c : Char), c ≠ '\\' →
    escList s ≠ t ++ c :: '"' :: w := by
  intro s
  induction s with
  | nil =>
    intro t w c _ h
    simp [escList] at h
  | cons a s' ih =>
    intro t w c hc h
    rw [escList] at h
    rcases List.append_eq_append_iff.mp h with ⟨m, _, hm2⟩ | ⟨m, hm1, hm2⟩
    · exact ih m w c hc hm2
    · cases m with
      | nil =>
        simp at hm2
        exact ih [] w c hc (by simpa using hm2.symm)
      | cons x m' =>
        cases m' with
        | nil =>
          rw [List.cons_append, List.nil_append] at hm2
          obtain ⟨_, h6⟩ := List.cons.inj hm2
          exact escList_head s' w h6.symm
        | cons y m'' =>
          rw [List.cons_append, List.cons_append] at hm2
          obtain ⟨hx, h6⟩ := List.cons.inj hm2
          obtain ⟨hy, _⟩ := List.cons.inj h6
          subst hx; subst hy
          exact escChar_no_pat a t m'' c hc hm1

theorem unescChar?_escChar (c : Char) (r : List Char) :
    unescChar? (escChar c ++ r) = some (c, r) := by
  unfold escChar
  split_ifs with h1 h2 h3 h4 h5 h6 h7 h8
  · subst h1; rfl
  · subst h2; rfl
  · subst h3; rfl
  · subst h4; rfl
  · subst h5; rfl
  · subst h6; rfl
  · subst h7; rfl
  · have e1 : hexVal (hexDigit (c.toNat / 16)) = c.toNat / 16 :=
      hexVal_hexDigit _ (by omega)
    have e2 : hexVal (hexDigit (c.toNat % 16)) = c.toNat % 16 :=
      hexVal_hexDigit _ (Nat.mod_lt _ (by norm_num))
    simp [unescChar?, e1, e2, Nat.div_add_mod, Char.ofNat_toNat]
  · simp [unescChar?, h2]

theorem unescF_escList : ∀ (s : List Char) (n : Nat), s.length ≤ n →
    unescF n (escList s) = some s := by
  intro s
  induction s with
  | nil =>
    intro n _
    cases n <;> rfl
  | cons c s' ih =>
    intro n hn
    cases n with
    | zero => simp at hn
    | succ m =>
      have hstep : unescF (m + 1) (escChar c ++ escList s') =
          (unescF m (escList s')).map (fun ts => c :: ts) := by
        obtain ⟨z, zs, hz, _⟩ := escChar_head c
        rw [hz, List.cons_append]
        have hu : unescChar? (z :: (zs ++ escList s')) = some (c, escList s') := by
          rw [← List.cons_append, ← hz]
          exact unescChar?_escChar c (escList s')
        simp only [unescF, hu]
      rw [escList, hstep, ih m (by simp at hn; omega)]
      rfl

theorem escList_inj {s1 s2 : List Char} (h : escList s1 = escList s2) : s1 = s2 := by
  have e1 := unescF_escList s1 (s1.length + s2.length) (by omega)
  have e2 := unescF_escList s2 (s1.length + s2.length) (by omega)
  rw [h, e2] at e1
  exact (Option.some_inj.mp e1).symm

theorem bp_tail_nil (t bp1 bp2 : List Char)
    (h1 : bp1 = [] ∨ ∃ s : List Char, s ≠ [] ∧ bp1 = '"' :: (escList s ++ ['"']))
    (h2 : bp2 = [] ∨ ∃ s : List Char, s ≠ [] ∧ bp2 = '"' :: (escList s ++ ['"']))
    (he : ':' :: bp1 = t ++ ':' :: bp2) : t = [] := by
  cases t with
  | nil => rfl
  | cons c t' =>
    exfalso
    rw [List.cons_append] at he
    obtain ⟨hc, hbp⟩ := List.cons.inj he
    rcases h1 with hb1 | ⟨s1, hs1ne, hb1⟩
    · subst hb1
      simp at hbp
    · subst hb1
      rcases h2 with hb2 | ⟨s2, hs2ne, hb2⟩
      · subst hb2
        have hl : ('"' :: escList s1) ++ ['"'] = t' ++ [':'] := by
          simpa using hbp
        have h3 : (some '"' : Option Char) = some ':' := by
          rw [← List.getLast?_concat ('"' :: escList s1), hl, List.getLast?_concat]
        simp at h3
      · subst hb2
        have h4 : ('"' :: escList s1) ++ ['"'] =
            (t' ++ ':' :: '"' :: escList s2) ++ ['"'] := by
          simpa [List.append_assoc] using hbp
        have h5 := List.append_cancel_right h4
        cases t' with
        | nil => simp at h5
        | cons d t'' =>
          rw [List.cons_append] at h5
          obtain ⟨hd, h6⟩ := List.cons.inj h5
          exact escList_no_pat s1 t'' (escList s2) ':' (by decide) h6

theorem key_tail_inj (u1 u2 bp1 bp2 : List Char)
    (h1 : bp1 = [] ∨ ∃ s : List Char, s ≠ [] ∧ bp1 = '"' :: (escList s ++ ['"']))
    (h2 : bp2 = [] ∨ ∃ s : List Char, s ≠ [] ∧ bp2 = '"' :: (escList s ++ ['"']))
    (he : u1 ++ ':' :: bp1 = u2 ++ ':' :: bp2) : u1 = u2 ∧ bp1 = bp2 := by
  rcases List.append_eq_append_iff.mp he with ⟨t, ht1, ht2⟩ | ⟨t, ht1, ht2⟩
  · have htn := bp_tail_nil t bp1 bp2 h1 h2 ht2
    subst htn
    simp at ht1 ht2
    exact ⟨ht1.symm, ht2⟩
  · have htn := bp_tail_nil t bp2 bp1 h2 h1 ht2
    subst htn
    simp at ht1 ht2
    exact ⟨ht1, ht2.symm⟩

theorem data_ne_nil_of_ne_empty {s : String} (h : s ≠ "") : s.data ≠ [] := by
  intro hd
  exact h (String.ext (hd.trans rfl))

theorem bodyPart_shape (b : Option String)
    (hb : b = none ∨ ∃ s, b = some s ∧ s ≠ "") :
    (bodyPart b).data = [] ∨
      ∃ s : List Char, s ≠ [] ∧ (bodyPart b).data = '"' :: (escList s ++ ['"']) := by
  rcases hb with hb | ⟨s, hb, hs⟩
  · subst hb
    exact Or.inl rfl
  · subst hb
    refine Or.inr ⟨s.data, data_ne_nil_of_ne_empty hs, ?_⟩
    simp only [bodyPart, if_neg hs, jsonStringify, String.data_append]
    rfl

theorem bodyPart_inj (b1 b2 : Option String)
    (hb1 : b1 = none ∨ ∃ s, b1 = some s ∧ s ≠ "")
    (hb2 : b2 = none ∨ ∃ s, b2 = some s ∧ s ≠ "")
    (h : (bodyPart b1).data = (bodyPart b2).data) : b1 = b2 := by
  rcases hb1 with hb1 | ⟨s1, hb1, hs1⟩ <;> rcases hb2 with hb2 | ⟨s2, hb2, hs2⟩
  · rw [hb1, hb2]
  · subst hb1; subst hb2
    exfalso
    have h2 : (bodyPart (some s2)).data = '"' :: (escList s2.data ++ ['"']) := by
      simp only [bodyPart, if_neg hs2, jsonStringify, String.data_append]
      rfl
    rw [h2] at h
    exact absurd h.symm (by simp [bodyPart])
  · subst hb1; subst hb2
    exfalso
    have h2 : (bodyPart (some s1)).data = '"' :: (escList s1.data ++ ['"']) := by
      simp only [bodyPart, if_neg hs1, jsonStringify, String.data_append]
      rfl
    rw [h2] at h
    exact absurd h (by simp [bodyPart])
  · subst hb1; subst hb2
    have e1 : (bodyPart (some s1)).data = '"' :: (escList s1.data ++ ['"']) := by
      simp only [bodyPart, if_neg hs1, jsonStringify, String.data_append]
      rfl
    have e2 : (bodyPart (some s2)).data = '"' :: (escList s2.data ++ ['"']) := by
      simp only [bodyPart, if_neg hs2, jsonStringify, String.data_append]
      rfl
    rw [e1, e2] at h
    obtain ⟨-, h3⟩ := List.cons.inj h
    have h4 := List.append_cancel_right h3
    have h5 := escList_inj h4
    rw [String.ext h5]

theorem getCacheKey_inj (m u1 u2 : String) (b1 b2 : Option String)
    (hb1 : b1 = none ∨ ∃ s, b1 = some s ∧ s ≠ "")
    (hb2 : b2 = none ∨ ∃ s, b2 = some s ∧ s ≠ "")
    (h : getCacheKey m u1 b1 = getCacheKey m u2 b2) : u1 = u2 ∧ b1 = b2 := by
  have hd := congrArg String.data h
  simp only [getCacheKey, String.data_append, List.append_assoc] at hd
  have e2 := List.append_cancel_left hd
  have e3 := List.append_cancel_left e2
  have e4 := List.append_cancel_left e3
  have e5 : u1.data ++ ':' :: (bodyPart b1).data =
      u2.data ++ ':' :: (bodyPart b2).data := by
    simpa using e4
  obtain ⟨hu, hbp⟩ := key_tail_inj u1.data u2.data (bodyPart b1).data (bodyPart b2).data
    (bodyPart_shape b1 hb1) (bodyPart_shape b2 hb2) e5
  exact ⟨String.ext hu, bodyPart_inj b1 b2 hb1 hb2 hbp⟩

theorem getLast_of_cons_append_pair {α : Type} (x a b : α) (l : List α) :
    (x :: (l ++ [a, b])).getLast? = some b := by
  have h : x :: (l ++ [a, b]) = (x :: (l ++ [a])) ++ [b] := by simp
  rw [h, List.getLast?_concat]

theorem missPath_ne_429 (env : Env) (req : ForwardReq) (key : String) (redisUp : Bool)
    (effs : List Eff) :
    ∀ d, (missPath env req key redisUp effs).1 ≠ .err 429 rateLimitedMsg d := by
  intro d
  rcases hf : env.fetchRes with ⟨tb, msg⟩ | u
  · cases tb <;> simp [missPath, hf]
  · cases redisUp <;> simp [missPath, hf]

theorem handle_reaches_miss (env : Env) (req : ForwardReq)
    (hv : invalidUrl req.url = false)
    (hpath : cacheEnabled req.cache = false ∨
      (cacheEnabled req.cache = true ∧ env.connectOk = true ∧
        (∃ k, env.incrRes = .ok k ∧ k ≤ RATE_LIMIT) ∧ env.getRes = .ok none)) :
    ∃ effs redisUp, handle env req =
      missPath env req (getCacheKey req.method req.url req.body) redisUp effs := by
  rcases hpath with hc | ⟨hc, hco, ⟨k, hk, hkle⟩, hg⟩
  · exact ⟨[], false, by simp [handle, hv, hc]⟩
  · refine ⟨(isRateLimited env (env.xff.getD "unknown") true).2 ++
      [.get (getCacheKey req.method req.url req.body)], true, ?_⟩
    have hd : decide (k > RATE_LIMIT) = false := decide_eq_false (not_lt.mpr hkle)
    simp [handle, hv, hc, hco, isRateLimited, hk, hd, hg]

/-! ## Claim theorems -/

/-- Claim C1: a forward request whose cacheConfig is absent or has
`enabled = false` triggers no rate-limiter and no cache-store operation —
its whole external trace is the single upstream fetch. -/
theorem cache_disabled_no_store_operations (env : Env) (req : ForwardReq)
    (hc : cacheEnabled req.cache = false) (hv : invalidUrl req.url = false) :
    (handle env req).2 =
      [.fetch req.url req.method req.headers (forwardedBody req.method req.body) 30000] := by
  cases hf : env.fetchRes with
  | error e => simp [handle, hv, hc, missPath, hf]
  | ok u => simp [handle, hv, hc, missPath, hf]

/-- Witness for C1: a concrete cache-disabled run issues exactly one fetch. -/
theorem cache_disabled_no_store_operations_witness :
    (handle envClock reqPlain).2 = [Eff.fetch "http://a" "GET" [] none 30000] :=
  cache_disabled_no_store_operations envClock reqPlain rfl (by decide)

/-- Claim C2: within one fixed window with a reachable store, every request
increments the counter exactly once (the counter after `n` requests is `n`,
also across rejections), the i-th request is rejected exactly when its
incremented count `i` exceeds `RATE_LIMIT = 20`; and the handler returns the
429 rate-limited response exactly when the incremented count exceeds 20. -/
theorem rate_window_count_and_reject :
    (∀ n : Nat, runWindow n =
      (n, (List.range n).map (fun (i : Nat) => decide ((i : Int) + 1 > RATE_LIMIT)))) ∧
    (∀ (env : Env) (req : ForwardReq) (k : Int),
      invalidUrl req.url = false → cacheEnabled req.cache = true →
      env.connectOk = true → env.incrRes = .ok k →
      ((handle env req).1 = .err 429 rateLimitedMsg none ↔ k > RATE_LIMIT)) := by
  constructor
  · intro n
    induction n with
    | zero => rfl
    | succ m ih =>
      simp only [runWindow, ih, rateStep, redisIncr, List.range_succ, List.map_append,
        List.map_cons, List.map_nil]
  · intro env req k hv hc hco hk
    simp only [handle, hv, Bool.false_eq_true, if_false, hc, hco, Bool.and_self, if_true,
      isRateLimited, hk]
    by_cases hgt : k > RATE_LIMIT
    · rw [decide_eq_true hgt]
      simp [hgt]
    · rw [decide_eq_false hgt]
      simp only [Bool.true_eq_false, if_false, Bool.false_eq_true]
      constructor
      · intro h
        exfalso
        rcases hg : env.getRes with _ | ⟨_ | entry⟩ <;>
          simp only [hg] at h
        · exact missPath_ne_429 _ _ _ _ _ _ h
        · exact missPath_ne_429 _ _ _ _ _ _ h
        · rcases ht : env.ttlRes with _ | t <;> simp only [ht] at h
          · exact missPath_ne_429 _ _ _ _ _ _ h
          · simp at h
      · intro h
        exact absurd h hgt

/-- Witness for C2: after 21 in-window requests the counter is 21 and the
verdict list is correct, and a handler run whose incremented count is 21
returns the 429 response. -/
theorem rate_window_count_and_reject_witness :
    runWindow 21 =
      (21, (List.range 21).map (fun (i : Nat) => decide ((i : Int) + 1 > RATE_LIMIT))) ∧
    ((handle envLimited reqCached).1 = .err 429 rateLimitedMsg none ↔
      (21 : Int) > RATE_LIMIT) :=
  ⟨rate_window_count_and_reject.1 21,
   rate_window_count_and_reject.2 envLimited reqCached 21 (by decide) rfl rfl rfl⟩

/-- Claim C3 counterexample: a requested ttl of `-5` is truthy in
`cache?.ttl || MAX_TTL`, so `Math.min(-5, 30) = -5` is passed to the store —
the effective TTL is negative, contradicting the claim that it never is and
that every requested ttl ≤ 0 is treated as the default. -/
theorem effective_ttl_negative_counterexample :
    ((handle envMiss reqTtlNeg).2).getLast? = some (.set "cache:GET:http://a:"
      { data := { status := 200, statusText := "OK",
                  headers := [("content-type", "text/plain")], data := "payload",
                  timing := 10, cache := { hit := false } },
        originalTiming := 10 }
      (-5)) ∧ (-5 : Int) < 0 := by
  constructor
  · decide
  · decide

/-- Claim C3 (amended): every cache write passes
`min(requested ttl when present and nonzero, otherwise 30, capped at 30)` to
the store; a requested ttl of 45 is clamped to 30; a requested ttl of 0 (or an
absent ttl) falls back to the default 30; the effective TTL is never zero —
but a negative requested ttl is passed through unchanged (and negative). -/
theorem effective_ttl_clamp_amended :
    (∀ (env : Env) (req : ForwardReq) (k : Int) (u : UpstreamResp),
      invalidUrl req.url = false → cacheEnabled req.cache = true →
      env.connectOk = true → env.incrRes = .ok k → k ≤ RATE_LIMIT →
      env.getRes = .ok none → env.fetchRes = .ok u →
      ((handle env req).2).getLast? = some (.set (getCacheKey req.method req.url req.body)
        { data := { status := u.status, statusText := u.statusText, headers := u.headers,
                    data := u.data, timing := env.nowAfterFetch - env.nowStart,
                    cache := { hit := false } },
          originalTiming := env.nowAfterFetch - env.nowStart }
        (effectiveEX req.cache))) ∧
    (∀ b : Bool, effectiveEX (some { enabled := b, ttl := some 45 }) = 30) ∧
    (∀ (b : Bool) (t : Int), t ≠ 0 →
      effectiveEX (some { enabled := b, ttl := some t }) = min t MAX_TTL) ∧
    (∀ b : Bool, effectiveEX (some { enabled := b, ttl := some 0 }) = MAX_TTL) ∧
    (∀ b : Bool, effectiveEX (some { enabled := b, ttl := none }) = MAX_TTL) ∧
    effectiveEX none = MAX_TTL ∧
    (∀ c, effectiveEX c ≠ 0) := by
  refine ⟨?_, ?_, ?_, ?_, ?_, ?_, ?_⟩
  · intro env req k u hv hc hco hk hkle hg hf
    have hd : decide (k > RATE_LIMIT) = false := decide_eq_false (not_lt.mpr hkle)
    simp only [handle, hv, Bool.false_eq_true, if_false, hc, hco, Bool.and_self, if_true,
      isRateLimited, hk, hd, hg, missPath, hf]
    exact getLast_of_cons_append_pair _ _ _ _
  · intro b
    cases b <;> decide
  · intro b t ht
    simp [effectiveEX, ht]
  · intro b
    cases b <;> decide
  · intro b
    cases b <;> decide
  · decide
  · intro c
    rcases c with _ | ⟨b, _ | t⟩
    · decide
    · cases b <;> decide
    · by_cases ht : t = 0
      · subst ht
        cases b <;> decide
      · simp [effectiveEX, ht, MAX_TTL]
        omega

/-- Witness for C3 (amended): a concrete run requesting ttl 45 writes the
entry with an effective TTL of 30. -/
theorem effective_ttl_clamp_amended_witness :
    ((handle envMiss reqTtl45).2).getLast? = some (.set "cache:GET:http://a:"
      { data := { status := 200, statusText := "OK",
                  headers := [("content-type", "text/plain")], data := "payload",
                  timing := 10, cache := { hit := false } },
        originalTiming := 10 }
      30) ∧
    effectiveEX (some { enabled := true, ttl := some 45 }) = 30 :=
  ⟨effective_ttl_clamp_amended.1 envMiss reqTtl45 2 okResp (by decide) rfl rfl rfl
      (by decide) rfl rfl,
   effective_ttl_clamp_amended.2.1 true⟩

/-- Claim C4: backing-store unavailability is never surfaced — a failing
rate-limit increment yields "not limited" (fail open), a failing cache lookup
(or a failed client connection) still reaches the forwarder and returns the
upstream success envelope as on a miss, and the cache-write outcome has no
observable effect on the handler at all. -/
theorem backing_store_failures_absorbed :
    (∀ (env : Env) (ip : String), env.incrRes = .error () →
      (isRateLimited env ip true).1 = false) ∧
    (∀ (env : Env) (req : ForwardReq) (u : UpstreamResp),
      invalidUrl req.url = false → cacheEnabled req.cache = true →
      env.connectOk = true → env.incrRes = .error () → env.getRes = .error () →
      env.fetchRes = .ok u →
      (handle env req).1 = .ok
        { status := u.status, statusText := u.statusText, headers := u.headers,
          data := u.data, timing := env.nowAfterFetch - env.nowStart,
          cache := { hit := false } }) ∧
    (∀ (env : Env) (req : ForwardReq) (u : UpstreamResp),
      invalidUrl req.url = false → cacheEnabled req.cache = true →
      env.connectOk = false → env.fetchRes = .ok u →
      (handle env req).1 = .ok
        { status := u.status, statusText := u.statusText, headers := u.headers,
          data := u.data, timing := env.nowAfterFetch - env.nowStart,
          cache := { hit := false } }) ∧
    (∀ (env : Env) (req : ForwardReq) (b : Bool),
      handle { env with setOk := b } req = handle env req) := by
  refine ⟨?_, ?_, ?_, ?_⟩
  · intro env ip h
    cases hco : env.connectOk <;> simp [isRateLimited, hco, h]
  · intro env req u hv hc hco hk hg hf
    simp [handle, hv, hc, hco, isRateLimited, hk, hg, missPath, hf]
  · intro env req u hv hc hco hf
    simp [handle, hv, hc, hco, missPath, hf]
  · intro env req b
    rfl

/-- Witness for C4: a concrete run with failing increment and failing lookup
is allowed, reaches upstream, and returns the success envelope; flipping the
cache-write outcome changes nothing. -/
theorem backing_store_failures_absorbed_witness :
    (isRateLimited envDegraded "1.2.3.4" true).1 = false ∧
    (handle envDegraded reqCached).1 = .ok
      { status := 200, statusText := "OK", headers := [("content-type", "text/plain")],
        data := "payload", timing := 10, cache := { hit := false } } ∧
    handle { envDegraded with setOk := false } reqCached = handle envDegraded reqCached :=
  ⟨backing_store_failures_absorbed.1 envDegraded "1.2.3.4" rfl,
   backing_store_failures_absorbed.2.1 envDegraded reqCached okResp (by decide) rfl rfl
      rfl rfl rfl,
   backing_store_failures_absorbed.2.2.2 envDegraded reqCached false⟩

/-- Claim C5 counterexample: an empty-string body is falsy in
`body ? JSON.stringify(body) : ''`, so it produces the same cache key as an
absent body — two triples differing only in the body map to one key,
contradicting "any change to body changes the key". -/
theorem cache_key_empty_body_counterexample :
    getCacheKey "GET" "http://a" (some "") = getCacheKey "GET" "http://a" none ∧
    (some "" : Option String) ≠ none := by
  constructor
  · rfl
  · decide

/-- Claim C5 (amended): `getCacheKey` is a pure deterministic function of
(method, url, body); headers do not participate at all; and for a fixed
method it is injective in (url, body) as long as the body is absent or a
nonempty string — the single exception forced by the counterexample is that
an empty-string body and an absent body are identified. -/
theorem cache_key_deterministic_header_free_injective :
    (∀ (m u : String) (b : Option String), getCacheKey m u b = getCacheKey m u b) ∧
    (∀ (req : ForwardReq) (hs : List (String × String)),
      getCacheKey ({ req with headers := hs }).method ({ req with headers := hs }).url
          ({ req with headers := hs }).body
        = getCacheKey req.method req.url req.body) ∧
    (∀ (m u1 u2 : String) (b1 b2 : Option String),
      (b1 = none ∨ ∃ s, b1 = some s ∧ s ≠ "") →
      (b2 = none ∨ ∃ s, b2 = some s ∧ s ≠ "") →
      getCacheKey m u1 b1 = getCacheKey m u2 b2 → u1 = u2 ∧ b1 = b2) := by
  exact ⟨fun m u b => rfl, fun req hs => rfl, getCacheKey_inj⟩

/-- Witness for C5 (amended): the injectivity applied at a concrete equal
pair with a nonempty body. -/
theorem cache_key_deterministic_header_free_injective_witness :
    "http://a" = "http://a" ∧ (some "x" : Option String) = some "x" :=
  cache_key_deterministic_header_free_injective.2.2 "GET" "http://a" "http://a"
    (some "x") (some "x")
    (Or.inr ⟨"x", rfl, by decide⟩) (Or.inr ⟨"x", rfl, by decide⟩) rfl

/-- Claim C6: on a cache hit the reported `timeSaved` is exactly the stored
`originalTiming` minus the elapsed time from handler start to the hit
response, surfaced as-is (no clamping) — so it is negative whenever the
cache-only path is slower than the original fetch. -/
theorem cache_hit_time_saved_unclamped (env : Env) (req : ForwardReq) (k : Int)
    (entry : CacheEntry) (t : Int)
    (hv : invalidUrl req.url = false) (hc : cacheEnabled req.cache = true)
    (hco : env.connectOk = true) (hk : env.incrRes = .ok k) (hkle : k ≤ RATE_LIMIT)
    (hg : env.getRes = .ok (some entry)) (ht : env.ttlRes = .ok t) :
    (handle env req).1 = .ok
      { entry.data with
        cache := { hit := true, ttl := some t,
                   timeSaved := some (entry.originalTiming - (env.nowHit - env.nowStart)) },
        timing := env.nowHit - env.nowStart } := by
  have hd : decide (k > RATE_LIMIT) = false := decide_eq_false (not_lt.mpr hkle)
  simp [handle, hv, hc, hco, isRateLimited, hk, hd, hg, ht]

/-- Witness for C6: a concrete hit whose original fetch took 5 ms and whose
cache path takes 100 ms reports `timeSaved = -95`, surfaced as-is. -/
theorem cache_hit_time_saved_unclamped_witness :
    (handle envHit reqCached).1 = .ok
      { status := 201, statusText := "Created", headers := [], data := "origdata",
        timing := 100,
        cache := { hit := true, ttl := some 25, timestamp := none,
                   timeSaved := some (-95) } } ∧
    (-95 : Int) < 0 :=
  ⟨cache_hit_time_saved_unclamped envHit reqCached 2 hitEntry 25 (by decide) rfl rfl rfl
      (by decide) rfl rfl,
   by decide⟩

/-- Claim C7: a forward request whose url is missing (empty) or does not
begin with `http://` or `https://` gets the 400 invalid-URL rejection, with
an empty external trace — before any rate-limit or cache-store operation. -/
theorem invalid_url_rejected_before_store (env : Env) (req : ForwardReq)
    (hv : invalidUrl req.url = true) :
    handle env req = (.err 400 invalidUrlMsg (some ("Invalid URL: " ++ req.url)), []) := by
  simp [handle, hv]

/-- Witness for C7: `ftp://example.com` is rejected with 400 and no
external operation is attempted. -/
theorem invalid_url_rejected_before_store_witness :
    handle envClock reqFtp =
      (.err 400 invalidUrlMsg (some "Invalid URL: ftp://example.com"), []) :=
  invalid_url_rejected_before_store envClock reqFtp (by decide)

/-- Claim C8 counterexample: with the upstream call issued at t=100 and its
body fully read at t=150 (handler entry at t=0), the reported timing is 150,
not the 50 ms from immediately-before-the-call to after-the-body-read that
the claim asserts — the code measures from handler start (route.ts line 37). -/
theorem timing_includes_prefetch_counterexample :
    (handle envClock reqPlain).1 = .ok
      { status := 200, statusText := "OK", headers := [("content-type", "text/plain")],
        data := "payload", timing := 150, cache := { hit := false } } ∧
    envClock.nowAfterFetch - envClock.nowPreFetch = 50 ∧ (150 : Int) ≠ 50 := by
  refine ⟨?_, ?_, ?_⟩ <;> decide

/-- Claim C8 (amended): on a miss (or cache-disabled) path the reported
timing is measured from handler entry — before parsing, validation,
rate-limit check and cache lookup — to immediately after the body is read; it
therefore includes the pre-call time and is at least the pure upstream
duration whenever the clock is monotone. -/
theorem timing_measured_from_handler_start (env : Env) (req : ForwardReq)
    (u : UpstreamResp)
    (hv : invalidUrl req.url = false)
    (hpath : cacheEnabled req.cache = false ∨
      (cacheEnabled req.cache = true ∧ env.connectOk = true ∧
        (∃ k, env.incrRes = .ok k ∧ k ≤ RATE_LIMIT) ∧ env.getRes = .ok none))
    (hf : env.fetchRes = .ok u) :
    (∃ st, (handle env req).1 = .ok st ∧
      st.timing = env.nowAfterFetch - env.nowStart) ∧
    (env.nowStart ≤ env.nowPreFetch →
      env.nowAfterFetch - env.nowPreFetch ≤ env.nowAfterFetch - env.nowStart) := by
  obtain ⟨effs, redisUp, heq⟩ := handle_reaches_miss env req hv hpath
  constructor
  · refine ⟨{ status := u.status, statusText := u.statusText, headers := u.headers,
              data := u.data, timing := env.nowAfterFetch - env.nowStart,
              cache := { hit := false } }, ?_, rfl⟩
    rw [heq]
    cases redisUp <;> simp [missPath, hf]
  · intro hmono
    omega

/-- Witness for C8 (amended): the concrete gapped-clock run reports
timing 150 (handler entry to body read). -/
theorem timing_measured_from_handler_start_witness :
    (∃ st, (handle envClock reqPlain).1 = HandlerResult.ok st ∧
      st.timing = envClock.nowAfterFetch - envClock.nowStart) ∧
    (envClock.nowStart ≤ envClock.nowPreFetch →
      envClock.nowAfterFetch - envClock.nowPreFetch ≤
        envClock.nowAfterFetch - envClock.nowStart) :=
  timing_measured_from_handler_start envClock reqPlain okResp (by decide) (Or.inl rfl) rfl

/-- Claim C9: the upstream call is issued with a hard 30000 ms timeout; a
timeout failure yields status 408 with the timeout message and an `error`
plus `details` body, any other failure yields status 500 with the generic
message — the two are always distinguishable. -/
theorem upstream_failure_status_mapping (env : Env) (req : ForwardReq) (e : UpErr)
    (hv : invalidUrl req.url = false)
    (hpath : cacheEnabled req.cache = false ∨
      (cacheEnabled req.cache = true ∧ env.connectOk = true ∧
        (∃ k, env.incrRes = .ok k ∧ k ≤ RATE_LIMIT) ∧ env.getRes = .ok none))
    (hf : env.fetchRes = .error e) :
    (Eff.fetch req.url req.method req.headers (forwardedBody req.method req.body) 30000)
        ∈ (handle env req).2 ∧
    (e.isTimeout = true → (handle env req).1 = .err 408 timeoutMsg (some e.message)) ∧
    (e.isTimeout = false → (handle env req).1 = .err 500 serverErrorMsg (some e.message)) := by
  obtain ⟨effs, redisUp, heq⟩ := handle_reaches_miss env req hv hpath
  rw [heq]
  refine ⟨?_, ?_, ?_⟩
  · simp [missPath, hf]
  · intro htb
    simp [missPath, hf, htb]
  · intro htb
    simp [missPath, hf, htb]

/-- Witness for C9: a concrete timed-out upstream call was issued with the
30000 ms timeout and maps to the 408 response. -/
theorem upstream_failure_status_mapping_witness :
    Eff.fetch "http://a" "GET" [] none 30000 ∈ (handle envTimeout reqPlain).2 ∧
    (handle envTimeout reqPlain).1 = .err 408 timeoutMsg (some "timed out") :=
  ⟨(upstream_failure_status_mapping envTimeout reqPlain
      { isTimeout := true, message := "timed out" } (by decide) (Or.inl rfl) rfl).1,
   (upstream_failure_status_mapping envTimeout reqPlain
      { isTimeout := true, message := "timed out" } (by decide) (Or.inl rfl) rfl).2.1 rfl⟩

/-- Claim C10: the envelope returned on a hit equals the stored envelope on
`status`, `statusText`, `headers` and `data`, overriding exactly `cache`
(fresh hit stats) and `timing` (current elapsed time); and the entry stored
at put-time carries `cache = \x7b hit: false \x7d` and the original timing. -/
theorem hit_envelope_frame_and_stored_entry_shape :
    (∀ (env : Env) (req : ForwardReq) (k : Int) (entry : CacheEntry) (t : Int),
      invalidUrl req.url = false → cacheEnabled req.cache = true →
      env.connectOk = true → env.incrRes = .ok k → k ≤ RATE_LIMIT →
      env.getRes = .ok (some entry) → env.ttlRes = .ok t →
      (handle env req).1 = .ok
        { status := entry.data.status, statusText := entry.data.statusText,
          headers := entry.data.headers, data := entry.data.data,
          timing := env.nowHit - env.nowStart,
          cache := { hit := true, ttl := some t, timestamp := none,
                     timeSaved := some (entry.originalTiming -
                       (env.nowHit - env.nowStart)) } }) ∧
    (∀ (env : Env) (req : ForwardReq) (k : Int) (u : UpstreamResp),
      invalidUrl req.url = false → cacheEnabled req.cache = true →
      env.connectOk = true → env.incrRes = .ok k → k ≤ RATE_LIMIT → k ≠ 1 →
      env.getRes = .ok none → env.fetchRes = .ok u →
      (handle env req).2 =
        [.incr ("rate_limit:" ++ env.xff.getD "unknown"),
         .get (getCacheKey req.method req.url req.body),
         .fetch req.url req.method req.headers (forwardedBody req.method req.body) 30000,
         .set (getCacheKey req.method req.url req.body)
           { data := { status := u.status, statusText := u.statusText,
                       headers := u.headers, data := u.data,
                       timing := env.nowAfterFetch - env.nowStart,
                       cache := { hit := false } },
             originalTiming := env.nowAfterFetch - env.nowStart }
           (effectiveEX req.cache)]) := by
  constructor
  · intro env req k entry t hv hc hco hk hkle hg ht
    have hd : decide (k > RATE_LIMIT) = false := decide_eq_false (not_lt.mpr hkle)
    simp [handle, hv, hc, hco, isRateLimited, hk, hd, hg, ht]
  · intro env req k u hv hc hco hk hkle hk1 hg hf
    have hd : decide (k > RATE_LIMIT) = false := decide_eq_false (not_lt.mpr hkle)
    simp [handle, hv, hc, hco, isRateLimited, hk, hd, hk1, hg, missPath, hf]

/-- Witness for C10: the concrete hit run returns the stored envelope with
only `cache` and `timing` overridden, and the concrete miss run stores an
entry whose envelope carries hit-false stats and the original timing. -/
theorem hit_envelope_frame_and_stored_entry_shape_witness :
    (handle envHit reqCached).1 = .ok
      { status := 201, statusText := "Created", headers := [], data := "origdata",
        timing := 100,
        cache := { hit := true, ttl := some 25, timestamp := none,
                   timeSaved := some (-95) } } ∧
    (handle envMiss reqCached).2 =
      [Eff.incr "rate_limit:unknown", Eff.get "cache:GET:http://a:",
       Eff.fetch "http://a" "GET" [] none 30000,
       Eff.set "cache:GET:http://a:"
         { data := { status := 200, statusText := "OK",
                     headers := [("content-type", "text/plain")], data := "payload",
                     timing := 10, cache := { hit := false } },
           originalTiming := 10 }
         30] :=
  ⟨hit_envelope_frame_and_stored_entry_shape.1 envHit reqCached 2 hitEntry 25
      (by decide) rfl rfl rfl (by decide) rfl rfl,
   hit_envelope_frame_and_stored_entry_shape.2 envMiss reqCached 2 okResp
      (by decide) rfl rfl rfl (by decide) (by decide) rfl rfl⟩

end Postman
